import Mathlib

/-!
Shallow embedding of the GadoBot message-handling module (the `ai` handler
module and its SQLite-backed gif cache) together with proofs about the
conversation-context retention, command extraction, side-effect dispatch and
media dedup behaviour of `handleMessage`, `extractCommand`, `getAIResponse`,
`handleReaction`, `handleGifCommand` and `handleGifUpload`.

Strings are embedded as `List Char`.  The two regular expressions used by the
program, `/%Reaction\(([^)]+)\)%/` and `/%sendGif%/`, are embedded as
first-match search functions with JavaScript `String.prototype.match`
semantics (scan left to right, at each position try to match; `[^)]+` is a
greedy nonempty run of characters other than `)`; the reaction pattern has one
capturing group, the sendGif pattern has none, so `match[1]` is `undefined`
for it).  External I/O (the HTTP backend, the Telegram transport, timers) is
modelled by an environment of outcomes, and each transport/log call becomes an
`Effect` in an emitted trace.
-/

namespace GadoBot

/-- Characters of a string literal. -/
def strL (s : String) : List Char := s.toList

/-- JavaScript `String.prototype.trim`: whitespace removed from both ends. -/
def trimChars (s : List Char) : List Char :=
  ((s.dropWhile Char.isWhitespace).reverse.dropWhile Char.isWhitespace).reverse

/-- JavaScript `s.replace(pat, '')` with a plain-string `pat`: remove the first
occurrence of `pat` from `s`; `s` unchanged when `pat` does not occur. -/
def replaceFirst (s pat : List Char) : List Char :=
  match s with
  | [] => []
  | c :: cs =>
    if pat.isPrefixOf (c :: cs) then List.drop pat.length (c :: cs)
    else c :: replaceFirst cs pat

/-- Match of `/%Reaction\(([^)]+)\)%/` anchored at the start of `s`:
the literal `%Reaction(`, a greedy nonempty run of characters other than `)`
(the capturing group), then `)%`.  Returns `(match0, capture, rest)`. -/
def matchReactionAt (s : List Char) : Option (List Char × List Char × List Char) :=
  if (strL "%Reaction(").isPrefixOf s then
    match (s.drop 10).dropWhile (fun c => c != ')') with
    | c1 :: c2 :: rest =>
      if c1 = ')' ∧ c2 = '%' ∧ ((s.drop 10).takeWhile (fun c => c != ')')).isEmpty = false then
        some (strL "%Reaction(" ++ (s.drop 10).takeWhile (fun c => c != ')') ++ [')', '%'],
          (s.drop 10).takeWhile (fun c => c != ')'), rest)
      else none
    | _ => none
  else none

/-- First match of `/%Reaction\(([^)]+)\)%/` in `s`, scanning left to right as
`String.prototype.match` does.  Returns `(before, match0, capture, rest)`. -/
def searchReaction : List Char → Option (List Char × List Char × List Char × List Char)
  | [] => none
  | c :: cs =>
    match matchReactionAt (c :: cs) with
    | some (m0, cap, rest) => some ([], m0, cap, rest)
    | none =>
      match searchReaction cs with
      | some (pre2, m0, cap, rest) => some (c :: pre2, m0, cap, rest)
      | none => none

/-- Match of `/%sendGif%/` anchored at the start of `s`. -/
def matchSendGifAt (s : List Char) : Option (List Char × List Char) :=
  if (strL "%sendGif%").isPrefixOf s then
    some (strL "%sendGif%", s.drop (strL "%sendGif%").length)
  else none

/-- First match of `/%sendGif%/` in `s`.  Returns `(before, match0, rest)`. -/
def searchSendGif : List Char → Option (List Char × List Char × List Char)
  | [] => none
  | c :: cs =>
    match matchSendGifAt (c :: cs) with
    | some (m0, rest) => some ([], m0, rest)
    | none =>
      match searchSendGif cs with
      | some (pre2, m0, rest) => some (c :: pre2, m0, rest)
      | none => none

/-- Result of a JavaScript regex match as the program consumes it:
`(before, match0, group1?, rest)`.  `group1?` is `match[1]`, which is
`undefined` (`none`) for a pattern with no capturing group. -/
abbrev MatchResult := List Char × List Char × Option (List Char) × List Char

/-- The `/%Reaction\(([^)]+)\)%/` pattern: one capturing group. -/
def reactionMatcher (s : List Char) : Option MatchResult :=
  (searchReaction s).map fun r => (r.1, r.2.1, some r.2.2.1, r.2.2.2)

/-- The `/%sendGif%/` pattern: no capturing group, so `match[1]` is absent. -/
def sendGifMatcher (s : List Char) : Option MatchResult :=
  (searchSendGif s).map fun r => (r.1, r.2.1, none, r.2.2)

/-- `extractCommand` (module lines 43–46):
`match ? [match[1], response.replace(match[0], '').trim()] : [null, response]`. -/
def extractCommand (response : List Char) (pattern : List Char → Option MatchResult) :
    Option (List Char) × List Char :=
  match pattern response with
  | some (_, m0, g1, _) => (g1, trimChars (replaceFirst response m0))
  | none => (none, response)

/-- A `{ role, content }` chat message / context turn. -/
structure Msg where
  role : List Char
  content : List Char
deriving DecidableEq

/-- A row of the `gifs` table: `(base64, hash, url)` with
`PRIMARY KEY (hash, url)`. -/
structure GifRow where
  base64 : List Char
  hash : List Char
  url : List Char
deriving DecidableEq

/-- The module's mutable state: the `messageContexts` and `lastBotMessages`
maps (JavaScript `Map`s, embedded as insertion-ordered association lists) and
the `gifs` table. -/
structure BotState where
  messageContexts : List (Nat × List Msg)
  lastBotMessages : List (Nat × List Nat)
  gifs : List GifRow
deriving DecidableEq

/-- One unit of work's inputs plus the outcomes of its external calls:
what the backend returns and whether each transport call throws. -/
structure MsgEnv where
  chatId : Nat
  fromId : Nat
  userName : List Char
  text : List Char
  isReplyToBot : Bool
  messageId : Option Nat
  /-- Backend call outcome: `none` = the HTTP request threw
  (timeout / network / 5xx), `some none` = no `choices[0].message.content`
  field, `some (some r)` = content `r` (possibly empty). -/
  backendOutcome : Option (Option (List Char))
  reactionFails : Bool
  gifPick : Nat
  gifSendFails : Bool
  replyFails : Bool
  replyMessageId : Nat
deriving DecidableEq

/-- Observable transport / event-log calls, in program order. -/
inductive Effect where
  | sendChatAction (chatId : Nat) (action : List Char)
  | setMessageReaction (chatId : Nat) (messageId : Nat) (emoji : List Char)
  | replyWithAnimation (hash : List Char)
  | reply (chatId : Nat) (text : List Char) (replyTo : Option Nat) (parseMode : List Char)
  | log (event : List Char) (ty : List Char) (payload : List Char)
deriving DecidableEq

/-- JavaScript `Map.prototype.get`. -/
def mapGet : List (Nat × α) → Nat → Option α
  | [], _ => none
  | (k', v) :: t, k => if k' = k then some v else mapGet t k

/-- JavaScript `Map.prototype.set`: update in place, or append a new key. -/
def mapSet : List (Nat × α) → Nat → α → List (Nat × α)
  | [], k, v => [(k, v)]
  | (k', v') :: t, k, v => if k' = k then (k, v) :: t else (k', v') :: mapSet t k v

/-- JavaScript `Array.prototype.slice(-n)`: the last `n` elements (all of them
when the array is shorter). -/
def sliceLast (n : Nat) (l : List α) : List α := l.drop (l.length - n)

/-- Characters escaped by `/[_*[\]()~`>#+\-=|{}.!]/g` before `ctx.reply`
(the backtick, `\x7b` and `\x7d` are written by code point). -/
def isMdSpecial (c : Char) : Bool :=
  c = '_' || c = '*' || c = '[' || c = ']' || c = '(' || c = ')' || c = '~' ||
  c = Char.ofNat 96 || c = '>' || c = '#' || c = '+' || c = '-' || c = '=' ||
  c = '|' || c = Char.ofNat 123 || c = Char.ofNat 125 || c = '.' || c = '!'

/-- `finalResponse.replace(/[_*[\]()~`>#+\-=|{}.!]/g, '\\$&')`. -/
def escapeMarkdown (s : List Char) : List Char :=
  s.foldr (fun c acc => (if isMdSpecial c then ['\\', c] else [c]) ++ acc) []

/-- `handleError` (lines 38–41): log an `ERROR`/`SYSTEM` record.  The thrown
error's own message, appended after `: ` in the source, is elided. -/
def handleError (message : List Char) : Effect :=
  Effect.log (strL "ERROR") (strL "SYSTEM") message

/-- `getAIResponse` (lines 105–128) reduced to its outcome handling: a thrown
request is caught and logged (`null` returned); `result || null` maps an
absent or empty `content` to `null`; a usable result is logged. -/
def getAIResponse (outcome : Option (Option (List Char))) :
    Option (List Char) × List Effect :=
  match outcome with
  | none => (none, [handleError (strL "AI request failed")])
  | some none => (none, [])
  | some (some result) =>
    if result.isEmpty then (none, [])
    else (some result, [Effect.log (strL "RESPONSE") (strL "text") result])

/-- The `messages` array of the backend POST body (line 110):
`[{ role:'system', ... }, ...context.slice(-8), { role:'user', ... }]`. -/
def aiMessages (systemPrompt : List Char) (context : List Msg) (prompt : List Char) :
    List Msg :=
  { role := strL "system", content := systemPrompt } ::
    (sliceLast 8 context ++ [{ role := strL "user", content := prompt }])

/-- `handleReaction` (lines 48–58): no-op without a reaction or a message id;
a thrown `setMessageReaction` is caught, logged and swallowed (`false`). -/
def handleReaction (env : MsgEnv) (reaction : Option (List Char)) :
    Bool × List Effect :=
  match reaction, env.messageId with
  | none, _ => (false, [])
  | some _, none => (false, [])
  | some r, some mid =>
    if env.reactionFails then (false, [handleError (strL "Reaction failed")])
    else (true,
      [Effect.setMessageReaction env.chatId mid r,
       Effect.log (strL "REACTION") (strL "SYSTEM") r])

/-- `handleGifCommand` (lines 60–73): `SELECT * FROM gifs ORDER BY RANDOM()
LIMIT 1` (the random row choice is the environment's `gifPick`, reduced modulo
the table size); no row is a silent `false`; a thrown send is caught. -/
def handleGifCommand (env : MsgEnv) (gifs : List GifRow) : Bool × List Effect :=
  match gifs.get? (env.gifPick % gifs.length) with
  | none => (false, [])
  | some row =>
    if env.gifSendFails then (false, [handleError (strL "GIF send failed")])
    else (true,
      [Effect.replyWithAnimation row.hash,
       Effect.log (strL "GIF_SENT") (strL "SYSTEM") row.hash])

/-- The context update on lines 178–182:
`[...context.slice(-18), { role:'user', ... }, { role:'assistant', ... }]`. -/
def contextAppend (context : List Msg) (userText finalResponse : List Char) :
    List Msg :=
  sliceLast 18 context ++
    [{ role := strL "user", content := userText },
     { role := strL "assistant", content := finalResponse }]

/-- Lines 167–195 of `handleMessage`: everything after a usable backend
response — extraction, dispatch, context update, escaped reply and
`lastBotMessages` bookkeeping.  A thrown `ctx.reply` lands in the outer
catch (`Message processing failed`), after the context was already updated. -/
def handleMessageResponded (env : MsgEnv) (st : BotState) (context : List Msg)
    (aiResponse : List Char) : BotState × List Effect :=
  let rx := extractCommand aiResponse reactionMatcher
  let gx := extractCommand rx.2 sendGifMatcher
  let reactEffs := (handleReaction env rx.1).2
  let gifEffs := if gx.1.isSome then (handleGifCommand env st.gifs).2 else []
  if gx.2.isEmpty then (st, reactEffs ++ gifEffs)
  else
    let typing2 := Effect.sendChatAction env.chatId (strL "typing")
    let st1 :=
      if env.isReplyToBot then
        { st with messageContexts :=
            mapSet st.messageContexts env.chatId (contextAppend context env.text gx.2) }
      else st
    if env.replyFails then
      (st1, reactEffs ++ gifEffs ++ [typing2, handleError (strL "Message processing failed")])
    else
      let current := (mapGet st1.lastBotMessages env.chatId).getD []
      let newLast := mapSet st1.lastBotMessages env.chatId (sliceLast 9 current ++ [env.replyMessageId])
      let st2 :=
        if env.isReplyToBot && gx.1.isNone then { st1 with lastBotMessages := newLast }
        else st1
      (st2, reactEffs ++ gifEffs ++
        [typing2, Effect.reply env.chatId (escapeMarkdown gx.2) env.messageId
          (strL "MarkdownV2")])

/-- `handleMessage` (lines 152–199).  The context is read once (line 157,
empty unless the unit is a reply to the bot); a `typing` presence signal is
sent; an unusable backend response returns before any mutation or send. -/
def handleMessage (env : MsgEnv) (st : BotState) : BotState × List Effect :=
  let context := if env.isReplyToBot then (mapGet st.messageContexts env.chatId).getD [] else []
  let ai := getAIResponse env.backendOutcome
  let effs0 := Effect.sendChatAction env.chatId (strL "typing") :: ai.2
  match ai.1 with
  | none => (st, effs0)
  | some aiResponse =>
    let res := handleMessageResponded env st context aiResponse
    (res.1, effs0 ++ res.2)

/-- `INSERT OR IGNORE INTO gifs ... PRIMARY KEY (hash, url)` (lines 141–145). -/
def insertOrIgnoreGif (gifs : List GifRow) (row : GifRow) : List GifRow :=
  if gifs.any (fun r => r.hash == row.hash && r.url == row.url) then gifs
  else gifs ++ [row]

/-- `handleGifUpload` (lines 130–150) reduced to its dedup/store logic, given
the already-fetched file identity and bytes: the pre-check
`SELECT 1 FROM gifs WHERE hash = ?` (line 135) returns early on any row with
the same hash, regardless of origin; otherwise the row is inserted with
insert-or-ignore on the `(hash, url)` primary key. -/
def handleGifUpload (gifs : List GifRow) (fileUniqueId originRef bytes : List Char) :
    List GifRow :=
  if gifs.any (fun r => r.hash == fileUniqueId) then gifs
  else insertOrIgnoreGif gifs { base64 := bytes, hash := fileUniqueId, url := originRef }

/-- Effects that belong to the reaction dispatch (its transport call, its
success log, or its swallowed-failure log). -/
def isReactionEffect : Effect → Bool
  | .setMessageReaction _ _ _ => true
  | .log ev _ pl => ev == strL "REACTION" || pl == strL "Reaction failed"
  | _ => false

/-- Effects that send something through the transport. -/
def isSendEffect : Effect → Bool
  | .reply _ _ _ _ => true
  | .replyWithAnimation _ => true
  | .setMessageReaction _ _ _ => true
  | _ => false

/-- The media-dispatch transport call. -/
def isGifDispatch : Effect → Bool
  | .replyWithAnimation _ => true
  | _ => false

/-! ### Concrete inputs used by witnesses and counterexamples -/

/-- An empty initial state: fresh process, no stored contexts or gifs. -/
def stEmpty : BotState := { messageContexts := [], lastBotMessages := [], gifs := [] }

/-- A continuation exchange whose backend call succeeds with the plain
response `ok` and whose transport calls all succeed. -/
def envSteady : MsgEnv :=
  { chatId := 1, fromId := 2, userName := strL "u", text := strL "hey",
    isReplyToBot := true, messageId := some 5,
    backendOutcome := some (some (strL "ok")),
    reactionFails := false, gifPick := 0, gifSendFails := false,
    replyFails := false, replyMessageId := 9 }

/-- One full successful exchange, as a state transformer. -/
def stepSteady (st : BotState) : BotState := (handleMessage envSteady st).1

/-- The same exchange but with a backend response carrying `%sendGif%`. -/
def envGifBug : MsgEnv := { envSteady with backendOutcome := some (some (strL "ok %sendGif%")) }

/-- A state whose gif cache is nonempty. -/
def stOneGif : BotState :=
  { messageContexts := [], lastBotMessages := [],
    gifs := [{ base64 := strL "b", hash := strL "h", url := strL "o" }] }

/-- The same exchange but with a backend call that throws. -/
def envDown : MsgEnv := { envSteady with backendOutcome := none }

/-- The same exchange but with a reaction-setting transport call that throws. -/
def envReactErr : MsgEnv := { envSteady with reactionFails := true }

/-- A gif table holding one row `(hash h, origin o1)`. -/
def gifsOne : List GifRow := [{ base64 := strL "b1", hash := strL "h", url := strL "o1" }]

/-- A two-turn context. -/
def ctxTwo : List Msg :=
  [{ role := strL "user", content := strL "a" }, { role := strL "assistant", content := strL "b" }]

/-! ### Lemmas about the embedded regex search and `extractCommand` -/

theorem length_dropWhile_le (p : α → Bool) (l : List α) :
    (l.dropWhile p).length ≤ l.length := by
  induction l with
  | nil => simp
  | cons a t ih =>
    rw [List.dropWhile_cons]
    split
    · exact Nat.le_trans ih (Nat.le_succ _)
    · exact Nat.le_refl _

theorem takeWhile_append_stop {p : α → Bool} {l : List α} {x : α} {t : List α}
    (hl : ∀ c ∈ l, p c = true) (hx : p x = false) :
    (l ++ x :: t).takeWhile p = l ∧ (l ++ x :: t).dropWhile p = x :: t := by
  induction l with
  | nil => simp [List.takeWhile_cons, List.dropWhile_cons, hx]
  | cons a l ih =>
    have ha : p a = true := hl a (by simp)
    have ih' := ih fun c hc => hl c (by simp [hc])
    simp [List.takeWhile_cons, List.dropWhile_cons, ha, ih'.1, ih'.2]

theorem dropWhile_dropWhile (p : α → Bool) (l : List α) :
    (l.dropWhile p).dropWhile p = l.dropWhile p := by
  induction l with
  | nil => rfl
  | cons a t ih =>
    rw [List.dropWhile_cons]
    split
    · exact ih
    · rw [List.dropWhile_cons]
      simp_all

theorem dropWhile_eq_self_of_isPrefix {p : α → Bool} {l l' : List α}
    (hl : l.dropWhile p = l) (hp : l' <+: l) : l'.dropWhile p = l' := by
  cases l' with
  | nil => rfl
  | cons c t =>
    obtain ⟨u, hu⟩ := hp
    have hc : p c = false := by
      by_contra hcon
      have hc' : p c = true := by revert hcon; cases p c <;> simp
      rw [← hu, List.cons_append, List.dropWhile_cons, if_pos hc'] at hl
      have hlen := congrArg List.length hl
      have hle := length_dropWhile_le p (t ++ u)
      simp only [List.length_cons] at hlen
      omega
    rw [List.dropWhile_cons, if_neg (by simp [hc])]

theorem trimChars_idem (s : List Char) : trimChars (trimChars s) = trimChars s := by
  unfold trimChars
  set u := s.dropWhile Char.isWhitespace with hu
  set d := u.reverse.dropWhile Char.isWhitespace with hd
  have hu2 : u.dropWhile Char.isWhitespace = u := by rw [hu]; exact dropWhile_dropWhile _ _
  have hsuf : d <:+ u.reverse := by rw [hd]; exact List.dropWhile_suffix _
  have hpre : d.reverse <+: u := by
    obtain ⟨w, hw⟩ := hsuf
    refine ⟨w.reverse, ?_⟩
    have := congrArg List.reverse hw
    simpa [List.reverse_append] using this
  have h1 : d.reverse.dropWhile Char.isWhitespace = d.reverse :=
    dropWhile_eq_self_of_isPrefix hu2 hpre
  rw [h1, List.reverse_reverse, hd, dropWhile_dropWhile]

theorem replaceFirst_left {pat t : List Char} (h : pat ≠ []) :
    replaceFirst (pat ++ t) pat = t := by
  cases pat with
  | nil => exact absurd rfl h
  | cons p ps =>
    rw [List.cons_append, replaceFirst]
    have hpre : (p :: ps).isPrefixOf (p :: (ps ++ t)) := by
      rw [List.isPrefixOf_iff_prefix, ← List.cons_append]
      exact List.prefix_append _ _
    rw [if_pos hpre, ← List.cons_append, List.drop_left]

theorem replaceFirst_cons_neg {pat : List Char} {c : Char} {cs : List Char}
    (h : ¬ pat.isPrefixOf (c :: cs)) :
    replaceFirst (c :: cs) pat = c :: replaceFirst cs pat := by
  rw [replaceFirst, if_neg h]

theorem matchReactionAt_sound {s m0 cap rest : List Char}
    (h : matchReactionAt s = some (m0, cap, rest)) :
    m0 = strL "%Reaction(" ++ cap ++ [')', '%'] ∧ s = m0 ++ rest ∧ cap ≠ [] ∧
      ∀ c ∈ cap, (c != ')') = true := by
  unfold matchReactionAt at h
  by_cases hp : (strL "%Reaction(").isPrefixOf s
  · rw [if_pos hp] at h
    rw [List.isPrefixOf_iff_prefix] at hp
    obtain ⟨tail, htail⟩ := hp
    have hdrop : s.drop 10 = tail := by
      rw [← htail]; exact List.drop_left' (by decide)
    rw [hdrop] at h
    cases hdw : tail.dropWhile (fun c => c != ')') with
    | nil => rw [hdw] at h; exact absurd h (by simp)
    | cons c1 t1 =>
      cases t1 with
      | nil => rw [hdw] at h; exact absurd h (by simp)
      | cons c2 t2 =>
        rw [hdw] at h
        dsimp only [] at h
        by_cases hcond : c1 = ')' ∧ c2 = '%' ∧
            (tail.takeWhile (fun c => c != ')')).isEmpty = false
        · rw [if_pos hcond] at h
          obtain ⟨hc1, hc2, he⟩ := hcond
          subst hc1; subst hc2
          simp only [Option.some.injEq, Prod.mk.injEq] at h
          obtain ⟨hm0, hcap, hrest⟩ := h
          have htw := List.takeWhile_append_dropWhile (p := fun c => c != ')') (l := tail)
          rw [hdw, hcap, hrest] at htw
          refine ⟨by rw [← hcap]; exact hm0.symm, ?_, ?_, ?_⟩
          · rw [← htail, ← htw, ← hm0, hcap]
            simp [List.append_assoc]
          · intro hnil
            rw [← hcap] at hnil
            simp [hnil] at he
          · intro c hc
            rw [← hcap] at hc
            exact List.mem_takeWhile_imp (p := fun c => c != ')') hc
        · rw [if_neg hcond] at h
          exact absurd h (by simp)
  · rw [if_neg hp] at h
    exact absurd h (by simp)

theorem matchReactionAt_complete {cap rest : List Char}
    (hne : cap ≠ []) (hcap : ∀ c ∈ cap, (c != ')') = true) :
    matchReactionAt (strL "%Reaction(" ++ (cap ++ ')' :: '%' :: rest)) =
      some (strL "%Reaction(" ++ cap ++ [')', '%'], cap, rest) := by
  unfold matchReactionAt
  have hp : (strL "%Reaction(").isPrefixOf (strL "%Reaction(" ++ (cap ++ ')' :: '%' :: rest)) := by
    rw [List.isPrefixOf_iff_prefix]
    exact List.prefix_append _ _
  rw [if_pos hp]
  have hdrop : (strL "%Reaction(" ++ (cap ++ ')' :: '%' :: rest)).drop 10 =
      cap ++ ')' :: '%' :: rest := List.drop_left' (by decide)
  rw [hdrop]
  have hstop := takeWhile_append_stop (p := fun c => c != ')') (x := ')') (t := '%' :: rest)
    hcap (by decide)
  rw [hstop.1, hstop.2]
  have he : cap.isEmpty = false := by
    cases cap with
    | nil => exact absurd rfl hne
    | cons a t => rfl
  simp [he]

theorem searchReaction_spec {s pre m0 cap rest : List Char}
    (h : searchReaction s = some (pre, m0, cap, rest)) :
    s = pre ++ m0 ++ rest ∧ matchReactionAt (m0 ++ rest) = some (m0, cap, rest) ∧
      replaceFirst s m0 = pre ++ rest := by
  induction s generalizing pre with
  | nil => simp [searchReaction] at h
  | cons c cs ih =>
    rw [searchReaction] at h
    cases hm : matchReactionAt (c :: cs) with
    | some r =>
      obtain ⟨m0', cap', rest'⟩ := r
      rw [hm] at h
      dsimp only [] at h
      simp only [Option.some.injEq, Prod.mk.injEq] at h
      obtain ⟨hpre, hm0, hcap, hrest⟩ := h
      subst hpre; subst hm0; subst hcap; subst hrest
      obtain ⟨hform, hs, hne, hmem⟩ := matchReactionAt_sound hm
      have hm0ne : m0' ≠ [] := by
        rw [hform]; intro hcon; simp [strL] at hcon
      refine ⟨by simpa using hs, by rw [← hs]; exact hm, ?_⟩
      rw [hs, replaceFirst_left hm0ne]
      simp
    | none =>
      rw [hm] at h
      dsimp only [] at h
      cases hs : searchReaction cs with
      | none => rw [hs] at h; simp at h
      | some r' =>
        obtain ⟨pre', m0', cap', rest'⟩ := r'
        rw [hs] at h
        dsimp only [] at h
        simp only [Option.some.injEq, Prod.mk.injEq] at h
        obtain ⟨hpre, hm0, hcap, hrest⟩ := h
        subst hpre; subst hm0; subst hcap; subst hrest
        obtain ⟨ih1, ih2, ih3⟩ := ih hs
        obtain ⟨hform, _, hne, hmem⟩ := matchReactionAt_sound ih2
        have hnp : ¬ m0'.isPrefixOf (c :: cs) := by
          intro hcon
          rw [List.isPrefixOf_iff_prefix] at hcon
          obtain ⟨u, hu⟩ := hcon
          have hsome : matchReactionAt (c :: cs) =
              some (strL "%Reaction(" ++ cap' ++ [')', '%'], cap', u) := by
            rw [← hu, hform]
            have hassoc : (strL "%Reaction(" ++ cap' ++ [')', '%']) ++ u =
                strL "%Reaction(" ++ (cap' ++ ')' :: '%' :: u) := by
              simp [List.append_assoc]
            rw [hassoc]
            exact matchReactionAt_complete hne hmem
          rw [hm] at hsome
          exact Option.noConfusion hsome
        refine ⟨by simp [ih1], ih2, ?_⟩
        rw [replaceFirst_cons_neg hnp, ih3]
        simp

theorem matchSendGifAt_sound {s m0 rest : List Char}
    (h : matchSendGifAt s = some (m0, rest)) :
    m0 = strL "%sendGif%" ∧ s = m0 ++ rest := by
  unfold matchSendGifAt at h
  by_cases hp : (strL "%sendGif%").isPrefixOf s
  · rw [if_pos hp] at h
    simp only [Option.some.injEq, Prod.mk.injEq] at h
    obtain ⟨hm0, hrest⟩ := h
    subst hm0
    rw [List.isPrefixOf_iff_prefix] at hp
    obtain ⟨tail, htail⟩ := hp
    refine ⟨rfl, ?_⟩
    rw [← hrest, ← htail, List.drop_left]
  · rw [if_neg hp] at h
    exact Option.noConfusion h

theorem matchSendGifAt_complete (t : List Char) :
    matchSendGifAt (strL "%sendGif%" ++ t) = some (strL "%sendGif%", t) := by
  unfold matchSendGifAt
  have hp : (strL "%sendGif%").isPrefixOf (strL "%sendGif%" ++ t) := by
    rw [List.isPrefixOf_iff_prefix]
    exact List.prefix_append _ _
  rw [if_pos hp, List.drop_left]

theorem searchSendGif_spec {s pre m0 rest : List Char}
    (h : searchSendGif s = some (pre, m0, rest)) :
    s = pre ++ m0 ++ rest ∧ m0 = strL "%sendGif%" ∧
      replaceFirst s m0 = pre ++ rest := by
  induction s generalizing pre with
  | nil => simp [searchSendGif] at h
  | cons c cs ih =>
    rw [searchSendGif] at h
    cases hm : matchSendGifAt (c :: cs) with
    | some r =>
      obtain ⟨m0', rest'⟩ := r
      rw [hm] at h
      dsimp only [] at h
      simp only [Option.some.injEq, Prod.mk.injEq] at h
      obtain ⟨hpre, hm0, hrest⟩ := h
      subst hpre; subst hm0; subst hrest
      obtain ⟨hform, hs⟩ := matchSendGifAt_sound hm
      have hm0ne : m0' ≠ [] := by
        rw [hform]; intro hcon; simp [strL] at hcon
      refine ⟨by simpa using hs, hform, ?_⟩
      rw [hs, replaceFirst_left hm0ne]
      simp
    | none =>
      rw [hm] at h
      dsimp only [] at h
      cases hs : searchSendGif cs with
      | none => rw [hs] at h; simp at h
      | some r' =>
        obtain ⟨pre', m0', rest'⟩ := r'
        rw [hs] at h
        dsimp only [] at h
        simp only [Option.some.injEq, Prod.mk.injEq] at h
        obtain ⟨hpre, hm0, hrest⟩ := h
        subst hpre; subst hm0; subst hrest
        obtain ⟨ih1, ih2, ih3⟩ := ih hs
        have hnp : ¬ m0'.isPrefixOf (c :: cs) := by
          intro hcon
          rw [List.isPrefixOf_iff_prefix] at hcon
          obtain ⟨u, hu⟩ := hcon
          have hsome : matchSendGifAt (c :: cs) = some (strL "%sendGif%", u) := by
            rw [← hu, ih2]
            exact matchSendGifAt_complete u
          rw [hm] at hsome
          exact Option.noConfusion hsome
        refine ⟨by simp [ih1], ih2, ?_⟩
        rw [replaceFirst_cons_neg hnp, ih3]
        simp

/-! ### Lemmas about the state maps and the orchestrator -/

theorem mapGet_mapSet_self (m : List (Nat × α)) (k : Nat) (v : α) :
    mapGet (mapSet m k v) k = some v := by
  induction m with
  | nil => simp [mapSet, mapGet]
  | cons p t ih =>
    obtain ⟨k', v'⟩ := p
    by_cases hk : k' = k
    · subst hk
      simp [mapSet, mapGet]
    · simp [mapSet, mapGet, hk, ih]

theorem mapGet_mapSet_ne (m : List (Nat × α)) {k k' : Nat} (v : α) (h : k' ≠ k) :
    mapGet (mapSet m k v) k' = mapGet m k' := by
  have h' : k ≠ k' := fun he => h he.symm
  induction m with
  | nil => simp [mapSet, mapGet, h']
  | cons p t ih =>
    obtain ⟨k'', v''⟩ := p
    by_cases hk : k'' = k
    · subst hk
      simp [mapSet, mapGet, h']
    · simp [mapSet, mapGet, hk, ih]

theorem contextAppend_length (context : List Msg) (u a : List Char) :
    (contextAppend context u a).length = min context.length 18 + 2 := by
  unfold contextAppend sliceLast
  simp [List.length_drop]
  omega

theorem contextAppend_length_le (context : List Msg) (u a : List Char) :
    (contextAppend context u a).length ≤ 20 := by
  rw [contextAppend_length]
  omega

theorem handleReaction_effs_reaction (env : MsgEnv) (r : Option (List Char)) :
    ∀ e ∈ (handleReaction env r).2, isReactionEffect e = true := by
  unfold handleReaction
  cases r with
  | none => simp
  | some rr =>
    cases hm : env.messageId with
    | none => simp
    | some mid =>
      by_cases hf : env.reactionFails
      · simp [hf, isReactionEffect, handleError]
      · simp [hf, isReactionEffect]

theorem responded_messageContexts (env : MsgEnv) (st : BotState) (context : List Msg)
    (resp : List Char) :
    (handleMessageResponded env st context resp).1.messageContexts = st.messageContexts ∨
    ∃ final, (handleMessageResponded env st context resp).1.messageContexts =
      mapSet st.messageContexts env.chatId (contextAppend context env.text final) := by
  simp only [handleMessageResponded]
  split
  · exact Or.inl rfl
  · split
    · split
      · exact Or.inr ⟨_, rfl⟩
      · exact Or.inl rfl
    · split
      · split
        · exact Or.inr ⟨_, rfl⟩
        · exact Or.inl rfl
      · split
        · exact Or.inr ⟨_, rfl⟩
        · exact Or.inl rfl

theorem responded_reaction_isolated (env : MsgEnv) (st : BotState) (context : List Msg)
    (resp : List Char) :
    (handleMessageResponded { env with reactionFails := true } st context resp).1 =
        (handleMessageResponded { env with reactionFails := false } st context resp).1 ∧
      ∃ reT reF post,
        (handleMessageResponded { env with reactionFails := true } st context resp).2 =
            reT ++ post ∧
          (handleMessageResponded { env with reactionFails := false } st context resp).2 =
            reF ++ post ∧
          (∀ e ∈ reT, isReactionEffect e = true) ∧
          ∀ e ∈ reF, isReactionEffect e = true := by
  constructor
  · simp only [handleMessageResponded]
    split
    · rfl
    · split
      · rfl
      · rfl
  · refine ⟨(handleReaction { env with reactionFails := true }
        (extractCommand resp reactionMatcher).1).2,
      (handleReaction { env with reactionFails := false }
        (extractCommand resp reactionMatcher).1).2, ?_⟩
    simp only [handleMessageResponded]
    split
    · exact ⟨(if (extractCommand (extractCommand resp reactionMatcher).2 sendGifMatcher).1.isSome
          then (handleGifCommand env st.gifs).2 else []),
        rfl, rfl, handleReaction_effs_reaction _ _, handleReaction_effs_reaction _ _⟩
    · split
      · exact ⟨(if (extractCommand (extractCommand resp reactionMatcher).2 sendGifMatcher).1.isSome
            then (handleGifCommand env st.gifs).2 else []) ++
            [Effect.sendChatAction env.chatId (strL "typing"),
              handleError (strL "Message processing failed")],
          List.append_assoc _ _ _, List.append_assoc _ _ _,
          handleReaction_effs_reaction _ _, handleReaction_effs_reaction _ _⟩
      · exact ⟨(if (extractCommand (extractCommand resp reactionMatcher).2 sendGifMatcher).1.isSome
            then (handleGifCommand env st.gifs).2 else []) ++
            [Effect.sendChatAction env.chatId (strL "typing"),
              Effect.reply env.chatId
                (escapeMarkdown
                  (extractCommand (extractCommand resp reactionMatcher).2 sendGifMatcher).2)
                env.messageId (strL "MarkdownV2")],
          List.append_assoc _ _ _, List.append_assoc _ _ _,
          handleReaction_effs_reaction _ _, handleReaction_effs_reaction _ _⟩

theorem handleMessage_ai_none₁ {env : MsgEnv} (st : BotState)
    (h : (getAIResponse env.backendOutcome).1 = none) :
    (handleMessage env st).1 = st := by
  simp only [handleMessage, h]

theorem handleMessage_ai_none₂ {env : MsgEnv} (st : BotState)
    (h : (getAIResponse env.backendOutcome).1 = none) :
    (handleMessage env st).2 =
      Effect.sendChatAction env.chatId (strL "typing") :: (getAIResponse env.backendOutcome).2 := by
  simp only [handleMessage, h]

theorem handleMessage_ai_some₁ {env : MsgEnv} (st : BotState) {resp : List Char}
    (h : (getAIResponse env.backendOutcome).1 = some resp) :
    (handleMessage env st).1 =
      (handleMessageResponded env st
        (if env.isReplyToBot then (mapGet st.messageContexts env.chatId).getD [] else [])
        resp).1 := by
  simp only [handleMessage, h]

theorem handleMessage_ai_some₂ {env : MsgEnv} (st : BotState) {resp : List Char}
    (h : (getAIResponse env.backendOutcome).1 = some resp) :
    (handleMessage env st).2 =
      Effect.sendChatAction env.chatId (strL "typing") ::
        ((getAIResponse env.backendOutcome).2 ++
          (handleMessageResponded env st
            (if env.isReplyToBot then (mapGet st.messageContexts env.chatId).getD [] else [])
            resp).2) := by
  simp only [handleMessage, h]
  rfl

/-! ### Claim theorems -/

/-- C2 counterexample: with one stored row `(hash h, origin o1)`, ingesting the
same content hash `h` from the DISTINCT origin `o2` is a silent no-op — the
pre-check `SELECT 1 FROM gifs WHERE hash = ?` matches on the hash alone — so no
second row is stored, contradicting the claimed `(contentHash, originRef)`
dedup key under which it would be a new, distinct row. -/
theorem gif_dedup_hash_only_cex :
    handleGifUpload gifsOne (strL "h") (strL "o2") (strL "b2") = gifsOne ∧
      strL "o2" ≠ strL "o1" ∧
      ((handleGifUpload gifsOne (strL "h") (strL "o2") (strL "b2")).any
        fun r => r.url == strL "o2") = false := by
  decide

/-- C2 (amended): the effective dedup key of `handleGifUpload` is the content
hash alone: if any row with the same hash already exists — regardless of its
origin reference — the call is a silent no-op; otherwise exactly one new
`(bytes, hash, origin)` row is appended (the `(hash, url)` insert-or-ignore
never rejects it, so ingestion is idempotent). -/
theorem handleGifUpload_hash_dedup (gifs : List GifRow) (h u b : List Char) :
    ((gifs.any fun r => r.hash == h) = true → handleGifUpload gifs h u b = gifs) ∧
      ((gifs.any fun r => r.hash == h) = false →
        handleGifUpload gifs h u b = gifs ++ [{ base64 := b, hash := h, url := u }]) := by
  constructor
  · intro hh
    unfold handleGifUpload
    rw [if_pos hh]
  · intro hh
    have hh2 : (gifs.any fun r => r.hash == h && r.url == u) = false := by
      rw [List.any_eq_false] at hh ⊢
      intro x hx
      have hx2 := hh x hx
      simp_all
    unfold handleGifUpload insertOrIgnoreGif
    rw [if_neg (by simp [hh]), if_neg (by simp [hh2])]

/-- C2 witness: a duplicate-hash ingest from a new origin is a no-op; a fresh
hash is stored as one new row. -/
theorem handleGifUpload_hash_dedup_witness :
    handleGifUpload gifsOne (strL "h") (strL "o2") (strL "b2") = gifsOne ∧
      handleGifUpload gifsOne (strL "h2") (strL "o1") (strL "b") =
        gifsOne ++ [{ base64 := strL "b", hash := strL "h2", url := strL "o1" }] :=
  ⟨(handleGifUpload_hash_dedup gifsOne (strL "h") (strL "o2") (strL "b2")).1 (by decide),
   (handleGifUpload_hash_dedup gifsOne (strL "h2") (strL "o1") (strL "b")).2 (by decide)⟩

/-- C3 code bug: the raw output `ok %sendGif%` contains the media-send tag
(`searchSendGif` finds it), yet `extractCommand` reports the flag ABSENT,
because it returns `match[1]` and `/%sendGif%/` has no capturing group, so
`match[1]` is `undefined`; consequently `handleMessage` never dispatches media
(no `replyWithAnimation` in its trace) even with a nonempty cache — although
`handleGifCommand` itself would have sent a cached item had it been invoked. -/
theorem sendGif_flag_never_dispatched :
    searchSendGif (strL "ok %sendGif%") = some (strL "ok ", strL "%sendGif%", []) ∧
      extractCommand (strL "ok %sendGif%") sendGifMatcher = (none, strL "ok") ∧
      ((handleMessage envGifBug stOneGif).2.all fun e => !(isGifDispatch e)) = true ∧
      handleGifCommand envGifBug stOneGif.gifs =
        (true, [Effect.replyWithAnimation (strL "h"),
          Effect.log (strL "GIF_SENT") (strL "SYSTEM") (strL "h")]) := by
  decide

/-- C4: the message list sent to the backend is exactly one system-preamble
message, then the most recent context turns — `context.slice(-8)` is a suffix
of the supplied context of length `min length 8`, all of it when the context
has 8 or fewer turns — then one new user turn; the storage retention bound 18
plays no role in this list. -/
theorem aiMessages_window (systemPrompt : List Char) (context : List Msg) (prompt : List Char) :
    aiMessages systemPrompt context prompt =
        { role := strL "system", content := systemPrompt } ::
          (sliceLast 8 context ++ [{ role := strL "user", content := prompt }]) ∧
      (sliceLast 8 context).length = min context.length 8 ∧
      sliceLast 8 context <:+ context ∧
      (aiMessages systemPrompt context prompt).length = min context.length 8 + 2 ∧
      (context.length ≤ 8 → sliceLast 8 context = context) := by
  refine ⟨rfl, ?_, List.drop_suffix _ _, ?_, ?_⟩
  · unfold sliceLast
    rw [List.length_drop]
    omega
  · unfold aiMessages sliceLast
    simp [List.length_drop]
    omega
  · intro hle
    unfold sliceLast
    have h0 : context.length - 8 = 0 := by omega
    rw [h0, List.drop_zero]

/-- C4 witness: a two-turn context is forwarded whole. -/
theorem aiMessages_window_witness : sliceLast 8 ctxTwo = ctxTwo :=
  (aiMessages_window (strL "s") ctxTwo (strL "p")).2.2.2.2 (by decide)

/-- C5: when the backend call fails (the request throws) or returns an absent
or empty result, `handleMessage` leaves the whole state — in particular every
stored conversation context — unchanged, and sends nothing through the
transport: no reply, no animation, no reaction (only the presence signal and,
on a thrown request, an error log). -/
theorem backend_failure_no_mutation_no_send (env : MsgEnv) (st : BotState)
    (h : env.backendOutcome = none ∨ env.backendOutcome = some none ∨
      env.backendOutcome = some (some [])) :
    (handleMessage env st).1 = st ∧
      ∀ e ∈ (handleMessage env st).2, isSendEffect e = false := by
  have hai : (getAIResponse env.backendOutcome).1 = none := by
    rcases h with h | h | h <;> rw [h] <;> rfl
  refine ⟨handleMessage_ai_none₁ st hai, ?_⟩
  intro e he
  rw [handleMessage_ai_none₂ st hai] at he
  rcases List.mem_cons.mp he with he | he
  · subst he; rfl
  · rcases h with h | h | h
    · rw [h] at he
      simp [getAIResponse] at he
      subst he
      rfl
    · rw [h] at he
      simp [getAIResponse] at he
    · rw [h] at he
      simp [getAIResponse] at he

/-- C5 witness: a thrown backend request leaves the state untouched. -/
theorem backend_failure_no_mutation_no_send_witness :
    (handleMessage envDown stEmpty).1 = stEmpty :=
  (backend_failure_no_mutation_no_send envDown stEmpty (Or.inl rfl)).1

/-- C6: when the reaction pattern matches, `extractCommand` removes exactly
the full first-matched span from the text (the text decomposes as
`pre ++ match0 ++ rest` and the result is `pre ++ rest`), trims surrounding
whitespace, and returns the first capture group as the extracted value. -/
theorem extract_removes_matched_span {s pre m0 cap rest : List Char}
    (h : searchReaction s = some (pre, m0, cap, rest)) :
    s = pre ++ m0 ++ rest ∧
      extractCommand s reactionMatcher = (some cap, trimChars (pre ++ rest)) := by
  obtain ⟨h1, _, h3⟩ := searchReaction_spec h
  refine ⟨h1, ?_⟩
  unfold extractCommand reactionMatcher
  rw [h]
  simp only [Option.map]
  rw [h3]

/-- C6 witness: `extract("hi %Reaction(😀)% there") = ("😀", "hi  there")`. -/
theorem extract_removes_matched_span_witness :
    extractCommand (strL "hi %Reaction(😀)% there") reactionMatcher =
      (some (strL "😀"), strL "hi  there") := by
  have h := @extract_removes_matched_span (strL "hi %Reaction(😀)% there")
    (strL "hi ") (strL "%Reaction(😀)%") (strL "😀") (strL " there") (by decide)
  exact h.2.trans (by decide)

/-- C7: `extractCommand` is a pure function (a Lean function of its two
arguments, so the same text and pattern always yield the same output), and on
a non-matching input it returns the text unchanged, character for character,
with the extracted value absent. -/
theorem extract_no_match_identity (s : List Char) (h : searchReaction s = none) :
    extractCommand s reactionMatcher = (none, s) := by
  unfold extractCommand reactionMatcher
  rw [h]
  rfl

/-- C7 witness: `extract("hello") = (absent, "hello")`. -/
theorem extract_no_match_identity_witness :
    extractCommand (strL "hello") reactionMatcher = (none, strL "hello") :=
  extract_no_match_identity (strL "hello") (by decide)

/-- C10: when the tag matches, the returned text is fully trimmed — no leading
or trailing whitespace survives at either end of the WHOLE remaining text,
also when that whitespace is nowhere near the removed tag; when nothing
matches, the text is returned exactly, all whitespace preserved. -/
theorem extract_trims_whole_text (s : List Char) :
    (∀ pre m0 cap rest, searchReaction s = some (pre, m0, cap, rest) →
      trimChars (extractCommand s reactionMatcher).2 = (extractCommand s reactionMatcher).2) ∧
      (searchReaction s = none → (extractCommand s reactionMatcher).2 = s) := by
  constructor
  · intro pre m0 cap rest h
    unfold extractCommand reactionMatcher
    rw [h]
    simp only [Option.map]
    exact trimChars_idem _
  · intro h
    unfold extractCommand reactionMatcher
    rw [h]
    rfl

/-- C10 witness: leading whitespace far from the tag is removed on a match;
on no match even outer whitespace survives untouched. -/
theorem extract_trims_whole_text_witness :
    trimChars (extractCommand (strL "  hi %Reaction(😀)% yo  ") reactionMatcher).2 =
        (extractCommand (strL "  hi %Reaction(😀)% yo  ") reactionMatcher).2 ∧
      (extractCommand (strL "  hello  ") reactionMatcher).2 = strL "  hello  " :=
  ⟨(extract_trims_whole_text (strL "  hi %Reaction(😀)% yo  ")).1
      (strL "  hi ") (strL "%Reaction(😀)%") (strL "😀") (strL " yo  ") (by decide),
   (extract_trims_whole_text (strL "  hello  ")).2 (by decide)⟩

/-- C1 counterexample: after ten successful continuation exchanges starting
from an empty store, the stored context of the conversation holds 20 turns —
more than the claimed retention bound of 18 — because `handleMessage`
truncates the OLD context to its last 18 turns and only then appends the two
new turns. -/
theorem context_grows_past_retention_cex :
    ((mapGet ((stepSteady^[10] stEmpty).messageContexts) 1).getD []).length = 20 ∧
      ¬ ((mapGet ((stepSteady^[10] stEmpty).messageContexts) 1).getD []).length ≤ 18 := by
  decide

/-- C1 (amended): the context update truncates the existing sequence to its
most recent 18 turns FIRST and then concatenates the new user/assistant pair,
so the stored length is `min (old length) 18 + 2`, bounded by 20 (not 18);
accordingly `handleMessage` never grows any stored context beyond
`max (its old length) 20`. -/
theorem contextAppend_truncate_then_append :
    (∀ (context : List Msg) (u a : List Char),
      contextAppend context u a =
          sliceLast 18 context ++
            [{ role := strL "user", content := u }, { role := strL "assistant", content := a }] ∧
        sliceLast 18 context <:+ context ∧
        (contextAppend context u a).length = min context.length 18 + 2 ∧
        (contextAppend context u a).length ≤ 20) ∧
    ∀ (env : MsgEnv) (st : BotState) (k : Nat),
      ((mapGet (handleMessage env st).1.messageContexts k).getD []).length ≤
        max ((mapGet st.messageContexts k).getD []).length 20 := by
  constructor
  · intro context u a
    exact ⟨rfl, List.drop_suffix _ _, contextAppend_length _ _ _, contextAppend_length_le _ _ _⟩
  · intro env st k
    cases hai : (getAIResponse env.backendOutcome).1 with
    | none =>
      rw [handleMessage_ai_none₁ st hai]
      exact le_max_left _ _
    | some resp =>
      rw [handleMessage_ai_some₁ st hai]
      rcases responded_messageContexts env st
          (if env.isReplyToBot then (mapGet st.messageContexts env.chatId).getD [] else []) resp with
        hc | ⟨final, hc⟩
      · rw [hc]
        exact le_max_left _ _
      · rw [hc]
        by_cases hk : k = env.chatId
        · subst hk
          rw [mapGet_mapSet_self]
          exact le_trans (contextAppend_length_le _ _ _) (le_max_right _ _)
        · rw [mapGet_mapSet_ne _ _ hk]
          exact le_max_left _ _

/-- C8: a thrown reaction-setting call is caught inside `handleReaction`,
logged as a `Reaction failed` error, and swallowed (`false` is returned); the
unit of work's resulting state is identical to the run in which the reaction
call succeeds, and the two traces differ only inside a segment made of
reaction-dispatch effects — the visible-text reply and any media dispatch are
delivered either way, in the same positions. -/
theorem reaction_failure_isolated (env : MsgEnv) (st : BotState) :
    (handleMessage { env with reactionFails := true } st).1 =
        (handleMessage { env with reactionFails := false } st).1 ∧
      (∃ pre reT reF post,
        (handleMessage { env with reactionFails := true } st).2 = pre ++ reT ++ post ∧
          (handleMessage { env with reactionFails := false } st).2 = pre ++ reF ++ post ∧
          (∀ e ∈ reT, isReactionEffect e = true) ∧
          ∀ e ∈ reF, isReactionEffect e = true) ∧
      ∀ r mid, env.messageId = some mid →
        handleReaction { env with reactionFails := true } (some r) =
          (false, [handleError (strL "Reaction failed")]) := by
  have hctx : (if ({ env with reactionFails := false } : MsgEnv).isReplyToBot then
        (mapGet st.messageContexts ({ env with reactionFails := false } : MsgEnv).chatId).getD []
      else []) =
      (if ({ env with reactionFails := true } : MsgEnv).isReplyToBot then
        (mapGet st.messageContexts ({ env with reactionFails := true } : MsgEnv).chatId).getD []
      else []) := rfl
  refine ⟨?_, ?_, ?_⟩
  · cases hai : (getAIResponse env.backendOutcome).1 with
    | none =>
      rw [@handleMessage_ai_none₁ { env with reactionFails := true } st hai,
        @handleMessage_ai_none₁ { env with reactionFails := false } st hai]
    | some resp =>
      rw [@handleMessage_ai_some₁ { env with reactionFails := true } st resp hai,
        @handleMessage_ai_some₁ { env with reactionFails := false } st resp hai, hctx]
      exact (responded_reaction_isolated env st _ resp).1
  · cases hai : (getAIResponse env.backendOutcome).1 with
    | none =>
      refine ⟨Effect.sendChatAction env.chatId (strL "typing") ::
          (getAIResponse env.backendOutcome).2, [], [], [], ?_, ?_, by simp, by simp⟩
      · rw [@handleMessage_ai_none₂ { env with reactionFails := true } st hai]
        simp only [List.append_nil]
      · rw [@handleMessage_ai_none₂ { env with reactionFails := false } st hai]
        simp only [List.append_nil]
    | some resp =>
      obtain ⟨hst, reT, reF, post, h1, h2, m1, m2⟩ :=
        responded_reaction_isolated env st
          (if ({ env with reactionFails := true } : MsgEnv).isReplyToBot then
            (mapGet st.messageContexts ({ env with reactionFails := true } : MsgEnv).chatId).getD []
          else []) resp
      refine ⟨Effect.sendChatAction env.chatId (strL "typing") ::
          (getAIResponse env.backendOutcome).2, reT, reF, post, ?_, ?_, m1, m2⟩
      · rw [@handleMessage_ai_some₂ { env with reactionFails := true } st resp hai, h1]
        simp only [List.cons_append, List.append_assoc]
      · rw [@handleMessage_ai_some₂ { env with reactionFails := false } st resp hai, hctx, h2]
        simp only [List.cons_append, List.append_assoc]
  · intro r mid hmid
    have hmid' : ({ env with reactionFails := true } : MsgEnv).messageId = some mid := hmid
    simp [handleReaction, hmid', hmid]

/-- C8 witness: with a message id present, a failing reaction dispatch yields
exactly the swallowed error log. -/
theorem reaction_failure_isolated_witness :
    handleReaction { envSteady with reactionFails := true } (some (strL "👍")) =
      (false, [handleError (strL "Reaction failed")]) :=
  (reaction_failure_isolated envSteady stEmpty).2.2 (strL "👍") 5 rfl

end GadoBot
